import Mathlib

/-!
Shallow embedding of the resilient Newegg harvest pipeline:
- `duck_db/database.py` (`Database.upsert_product`, `Database.upsert_review`)
- `web_scraper/data_parser.py` (`DataParser.extract_product_info`, `DataParser.parse_review`)
- `web_scraper/scraper.py` (`_execute_with_retries`, `extract_reviews` pagination loop)

Python dictionaries with possibly-missing keys are modelled as structures of
`Option` fields; a missing key accessed with `d['k']` raises `KeyError`, which
the surrounding `try`/`except` blocks swallow, so every branch of the model
states explicitly what has been committed to the store at the moment the
lookup error fires.  SQL tables are lists of rows; `SELECT ... WHERE` is
`List.find?`; `UPDATE ... WHERE url = ?` maps a row-refresher over the table;
`INSERT` appends.  Regex digit matching is modelled over ASCII digits.
-/

namespace SPT

/-- A row of the `products` table (`database.py`, `create_tables`). -/
structure ProductRow where
  id : Int
  url : String
  title : String
  brand : String
  price : String
  ratings : String
  reviews_count : Int
  description : String
  scraped_at : Nat
deriving DecidableEq, Repr

/-- A row of the `reviews` table (`database.py`, `create_tables`). -/
structure ReviewRow where
  id : Int
  product_id : Int
  reviewer_name : String
  rating : Int
  review_title : String
  review_body : String
  date_of_review : String
  verified_buyer : String
deriving DecidableEq, Repr

/-- The embedded DuckDB store: both tables. -/
structure DB where
  products : List ProductRow
  reviews : List ReviewRow
deriving DecidableEq, Repr

/-- The `product_info` dict handed to `upsert_product`; `none` = key absent. -/
structure ProductInfo where
  title : Option String
  brand : Option String
  price : Option String
  ratings : Option String
  reviews_count : Option Int
  description : Option String
  scraped_at : Option Nat
deriving DecidableEq, Repr

/-- The `review_info` dict handed to `upsert_review`; `none` = key absent. -/
structure ReviewInfo where
  reviewer_name : Option String
  rating : Option Int
  review_title : Option String
  review_body : Option String
  date_of_review : Option String
  verified_buyer : Option String
deriving DecidableEq, Repr

/-- Models `SELECT COALESCE(MAX(id), 0) + 1` over a column of ids. -/
def nextId (ids : List Int) : Int := (ids.max?.getD 0) + 1

/-- The row refresher of the `UPDATE products SET price = ?, ratings = ?,
reviews_count = ?, scraped_at = current_timestamp WHERE url = ?` statement:
applied to every row, it touches exactly the rows whose `url` matches. -/
def refreshRow (p rt : String) (rc : Int) (now : Nat) (url : String)
    (r : ProductRow) : ProductRow :=
  if r.url == url then
    { r with price := p, ratings := rt, reviews_count := rc, scraped_at := now }
  else r

/-- Embedding of `Database.upsert_product` (`database.py` lines 69-127).  Returns the id it
would return (`none` models the `except` branch returning `None`) together
with the store as left by the call.  Branch structure follows the source:
look up by url; if present, build the update tuple (raising `KeyError` on a
missing `price`/`ratings`/`reviews_count` key before anything is written),
execute and commit the update, then format the log line (raising on a missing
`title` key *after* the commit); if absent, compute `max(id)+1`, build the
insert tuple (raising on any of the six missing keys before anything is
written), insert and commit. -/
def upsert_product (db : DB) (info : ProductInfo) (url : String) (now : Nat) :
    Option Int × DB :=
  match db.products.find? (fun r => r.url == url) with
  | some row =>
    match info.price, info.ratings, info.reviews_count with
    | some p, some rt, some rc =>
      let db2 : DB := { db with products := db.products.map (refreshRow p rt rc now url) }
      match info.title with
      | some _ => (some row.id, db2)
      | none => (none, db2)
    | _, _, _ => (none, db)
  | none =>
    match info.title, info.brand, info.price, info.ratings,
          info.reviews_count, info.description with
    | some t, some b, some p, some rt, some rc, some d =>
      let nid := nextId (db.products.map (fun r => r.id))
      (some nid,
        { db with products := db.products ++
            [{ id := nid, url := url, title := t, brand := b, price := p,
               ratings := rt, reviews_count := rc, description := d,
               scraped_at := now }] })
    | _, _, _, _, _, _ => (none, db)

/-- The composite natural key `(product_id, reviewer_name, date_of_review)`
used by the pre-insert lookup in `upsert_review`. -/
def keyMatch (pid : Int) (name date : String) (r : ReviewRow) : Bool :=
  r.product_id == pid && r.reviewer_name == name && r.date_of_review == date

/-- Embedding of `Database.upsert_review` (`database.py` lines 129-182).  `none` product id
returns immediately; a missing dict key raises `KeyError` inside the `try`
(checked in source access order) and the handler logs and returns with
nothing written; a `FOREIGN KEY` violation on insert likewise aborts the
write.  On a natural-key hit the call is a no-op. -/
def upsert_review (db : DB) (info : ReviewInfo) (pid? : Option Int) : DB :=
  match pid? with
  | none => db
  | some pid =>
    match info.reviewer_name, info.date_of_review with
    | some name, some date =>
      match db.reviews.find? (keyMatch pid name date) with
      | some _ => db
      | none =>
        match info.rating, info.review_title, info.review_body, info.verified_buyer with
        | some rat, some rt, some rb, some vb =>
          if db.products.any (fun pr => pr.id == pid) then
            { db with reviews := db.reviews ++
                [{ id := nextId (db.reviews.map (fun r => r.id)), product_id := pid,
                   reviewer_name := name, rating := rat, review_title := rt,
                   review_body := rb, date_of_review := date, verified_buyer := vb }] }
          else db
        | _, _, _, _ => db
    | _, _ => db

/-! ### Retry executor (`scraper.py`, `_execute_with_retries`, lines 74-88) -/

/-- The constant `RETRY_COUNT = 3` (`scraper.py` line 13 / `config.py` line 3). -/
def RETRY_COUNT : Nat := 3

/-- The constant `RETRY_DELAY_SECONDS = 5` (`scraper.py` line 14 / `config.py` line 4). -/
def RETRY_DELAY_SECONDS : Nat := 5

/-- Outcome of one invocation of the wrapped asynchronous action: it returns a
value, raises `PlaywrightTimeoutError`, or raises some other exception. -/
inductive AttemptResult (α : Type) where
  | ok (a : α)
  | timeout
  | fatal
deriving DecidableEq, Repr

/-- The `for attempt in range(RETRY_COUNT)` loop of `_execute_with_retries`,
with the action modelled as a function of the attempt index.  The result
records the returned value (`none` = the trailing `return None`), the number
of attempts actually made, and the list of `asyncio.sleep` delays performed
(one `RETRY_DELAY_SECONDS` after every timeout, including the last). -/
def retryLoop (action : Nat → AttemptResult α) : Nat → Nat → Option α × Nat × List Nat
  | 0, _ => (none, 0, [])
  | fuel + 1, i =>
    match action i with
    | .ok a => (some a, 1, [])
    | .timeout =>
      let r := retryLoop action fuel (i + 1)
      (r.1, r.2.1 + 1, RETRY_DELAY_SECONDS :: r.2.2)
    | .fatal => (none, 1, [])

/-- Embedding of `_execute_with_retries`: run the loop for `RETRY_COUNT` attempts starting
at attempt index 0.  A non-timeout exception `break`s out of the loop and
falls through to `return None`; exhaustion likewise returns `None`. -/
def execute_with_retries (action : Nat → AttemptResult α) : Option α × Nat × List Nat :=
  retryLoop action RETRY_COUNT 0

/-! ### Numeric parsing (`data_parser.py`) -/

/-- Models `re.search(r'\d+', text)`: the leftmost maximal run of (ASCII) digits. -/
def firstDigitRun : List Char → Option (List Char)
  | [] => none
  | c :: rest =>
    if c.isDigit then some (c :: rest.takeWhile Char.isDigit)
    else firstDigitRun rest

/-- Models `int(...)` on a nonempty string of digits. -/
def digitsToNat (l : List Char) : Nat :=
  l.foldl (fun a c => a * 10 + (c.toNat - 48)) 0

/-- Models `int(reviews_count_digits.group(0)) if reviews_count_digits else 0`
(`data_parser.py` line 43). -/
def parseReviewsCount (s : String) : Int :=
  (((firstDigitRun s.data).map digitsToNat).getD 0 : Nat)

/-- One attempt of `re.search(r'rating-(\d+)', ...)` at the head of the
character list: seven literal characters `rating-` followed by at least one
digit; the capture group is the maximal digit run after the dash. -/
def ratingMatchAt (l : List Char) : Option Nat :=
  match l with
  | c1 :: c2 :: c3 :: c4 :: c5 :: c6 :: c7 :: c :: rest =>
    if c1 = 'r' ∧ c2 = 'a' ∧ c3 = 't' ∧ c4 = 'i' ∧ c5 = 'n' ∧ c6 = 'g' ∧
        c7 = '-' ∧ c.isDigit then
      some (digitsToNat (c :: rest.takeWhile Char.isDigit))
    else none
  | _ => none

/-- Models `re.search(r'rating-(\d+)', s)`: try each position left to right. -/
def findRatingNum : List Char → Option Nat
  | [] => none
  | c :: rest =>
    match ratingMatchAt (c :: rest) with
    | some n => some n
    | none => findRatingNum rest

/-- The rating block of `parse_review` (`data_parser.py` lines 60-65):
`rating = 0`; if the attribute value is non-null and the regex matches,
`rating = int(match.group(1))`. -/
def parseRating (cls : Option String) : Nat :=
  match cls with
  | none => 0
  | some s => (findRatingNum s.data).getD 0

/-! ### Field extraction (`data_parser.py`) -/

/-- The reads `DataParser.extract_product_info` performs on the rendered
page, in source order; `none` on an outer `Option` means that read raises
(element missing / wait failed).  `ratingAttr`'s inner `Option` is the
attribute value `get_attribute` returns, which may be null without raising. -/
structure RenderedPage where
  title : Option String
  brand : Option String
  price : Option String
  ratingAttr : Option (Option String)
  reviewsCountText : Option String
  descriptionTexts : Option (List String)
deriving DecidableEq, Repr

/-- Models `await rating_element.get_attribute('title') or "No rating text"`:
Python `or` replaces both `None` and the empty string. -/
def ratingOrDefault (a : Option String) : String :=
  match a with
  | none => "No rating text"
  | some s => if s = "" then "No rating text" else s

/-- Embedding of `DataParser.extract_product_info` (`data_parser.py` lines 14-54): the
reads run sequentially inside one `try`; the first raising read aborts the
rest and the handler returns the dict built so far. -/
def extract_product_info (pg : RenderedPage) (now : Nat) : ProductInfo :=
  match pg.title with
  | none => ⟨none, none, none, none, none, none, none⟩
  | some t =>
    match pg.brand with
    | none => ⟨some t, none, none, none, none, none, none⟩
    | some b =>
      match pg.price with
      | none => ⟨some t, some b, none, none, none, none, none⟩
      | some p =>
        match pg.ratingAttr with
        | none => ⟨some t, some b, some p, none, none, none, none⟩
        | some a =>
          let rts := ratingOrDefault a
          match pg.reviewsCountText with
          | none => ⟨some t, some b, some p, some rts, none, none, none⟩
          | some ct =>
            let rc := parseReviewsCount ct
            match pg.descriptionTexts with
            | none => ⟨some t, some b, some p, some rts, some rc, none, none⟩
            | some ds =>
              ⟨some t, some b, some p, some rts, some rc,
                some (String.intercalate "\n" ds), some now⟩

/-- The reads `DataParser.parse_review` performs on one review item handle;
`none` on the outer `Option` means that read raises.  `ratingClassRead`'s
inner `Option` is the nullable `class` attribute value. -/
structure ReviewItem where
  ratingClassRead : Option (Option String)
  author : Option String
  titleRead : Option String
  body : Option String
  date : Option String
  verifiedVisible : Option Bool
deriving DecidableEq, Repr

/-- Embedding of `DataParser.parse_review` (`data_parser.py` lines 56-79): any raising
read inside the `try` makes the whole review `None`; otherwise the full dict
is returned, with `verified_buyer` derived from badge visibility. -/
def parse_review (it : ReviewItem) : Option ReviewInfo :=
  match it.ratingClassRead with
  | none => none
  | some cls =>
    let rating := parseRating cls
    match it.author, it.titleRead, it.body, it.date, it.verifiedVisible with
    | some a, some t, some b, some d, some v =>
      some { reviewer_name := some a, rating := some (rating : Int),
             review_title := some t, review_body := some b,
             date_of_review := some d,
             verified_buyer := some (if v then "Yes" else "No") }
    | _, _, _, _, _ => none

/-! ### Pagination harvest loop (`scraper.py`, `extract_reviews`, lines 153-202) -/

/-- One page's fan-out (`scraper.py` lines 176-179): `asyncio.gather` returns
the parse results in argument order, i.e. in the order of the item handles,
and the comprehension filters out the `None` results of failed parses. -/
def pageReviews (parse : ι → Option β) (items : List ι) : List β :=
  (items.map parse).filterMap id

/-- The `while True` pagination loop of `extract_reviews`, over an abstract
sequence of pages (`pages n` = the review item handles found on page `n`)
and a next-control visibility oracle.  `fuel` bounds the unrolling (the
source loop has no intrinsic bound); `some acc` is normal termination with
the accumulated `reviews_list`, `none` is fuel exhaustion. -/
def harvestLoop (pages : Nat → List ι) (nextVisible : Nat → Bool)
    (parse : ι → Option β) : Nat → Nat → List β → Option (List β)
  | 0, _, _ => none
  | fuel + 1, p, acc =>
    let items := pages p
    if items.isEmpty then some acc
    else
      let acc2 := acc ++ pageReviews parse items
      if nextVisible p then harvestLoop pages nextVisible parse fuel (p + 1) acc2
      else some acc2

/-- A review dict that carries the natural key `(pid, name, date)` and all
the fields the insert statement reads — what `parse_review` always produces
for a successfully parsed review. -/
def hasKeyFields (name date : String) (i : ReviewInfo) : Prop :=
  i.reviewer_name = some name ∧ i.date_of_review = some date ∧
  i.rating.isSome = true ∧ i.review_title.isSome = true ∧
  i.review_body.isSome = true ∧ i.verified_buyer.isSome = true

/-! ### Concrete inputs used by counterexamples and witnesses -/

/-- A store holding the single product row `(1, "u", ...)` and no reviews. -/
def dbOneProduct : DB :=
  ⟨[{ id := 1, url := "u", title := "T", brand := "B", price := "$0",
      ratings := "old", reviews_count := 1, description := "D", scraped_at := 0 }], []⟩

/-- A rendered page on which exactly the brand read fails: every other read
returns a value. -/
def pgBrandFail : RenderedPage :=
  ⟨some "T", none, some "$9.99", some (some "4.7"), some "(42)", some ["d1"]⟩

/-- A rendered page on which exactly the description read fails. -/
def pgDescFail : RenderedPage :=
  ⟨some "T", some "B", some "$1", some (some "4.5"), some "(3)", none⟩

/-- A review item whose rating icon carries the class `rating rating-6` and
whose other reads all succeed. -/
def itemSix : ReviewItem :=
  ⟨some (some "rating rating-6"), some "A", some "T", some "B", some "D", some true⟩

/-- A complete review dict with natural key `(1, "alice", "d1")`. -/
def reviewAlice : ReviewInfo :=
  ⟨some "alice", some 5, some "great", some "body", some "d1", some "Yes"⟩

/-- A complete product dict as scraped on a first visit. -/
def infoFirst : ProductInfo :=
  ⟨some "T", some "B", some "$1", some "4.5", some 3, some "D", some 0⟩

/-- A complete product dict as scraped on a second visit: same immutable
fields, fresh volatile fields. -/
def infoSecond : ProductInfo :=
  ⟨some "T", some "B", some "$2", some "4.8", some 9, some "D", some 0⟩

/-- The store produced by upserting `infoFirst` under url `"u"` into the
empty store at time 5. -/
def dbAfterFirst : DB :=
  ⟨[{ id := 1, url := "u", title := "T", brand := "B", price := "$1",
      ratings := "4.5", reviews_count := 3, description := "D", scraped_at := 5 }], []⟩

/-! ## Theorems -/

/-- Claim C6: For every review record, calling `upsert_review` with an absent
(`None`) product id inserts nothing into any table, leaves the store
unchanged, and does not raise (the call is the identity on the store). -/
theorem upsert_review_null_product_id (db : DB) (info : ReviewInfo) :
    upsert_review db info none = db := rfl

/-- Claim C10: Within a single page, the reviews returned by the fan-out are
exactly the parses of the item handles in handle (DOM) order with failures
dropped: `asyncio.gather` returns results in argument order and the filter
preserves relative order, so surviving reviews are never reordered. -/
theorem pageReviews_preserves_order (parse : ι → Option β) (items : List ι) :
    pageReviews parse items = items.filterMap parse := by
  simp [pageReviews, List.filterMap_map]

/-- Claim C3: An action that fails with a transient timeout on every
invocation is attempted exactly `RETRY_COUNT` times, with a fixed
`RETRY_DELAY_SECONDS` delay after each timed-out attempt, after which the
executor returns an absent result without raising past its boundary. -/
theorem execute_with_retries_exhaustion (action : Nat → AttemptResult α)
    (h : ∀ i, action i = AttemptResult.timeout) :
    execute_with_retries action =
      (none, RETRY_COUNT, List.replicate RETRY_COUNT RETRY_DELAY_SECONDS) := by
  have key : ∀ fuel start, retryLoop action fuel start =
      (none, fuel, List.replicate fuel RETRY_DELAY_SECONDS) := by
    intro fuel
    induction fuel with
    | zero => intro start; rfl
    | succ n ih =>
      intro start
      simp [retryLoop, h start, ih (start + 1), List.replicate_succ]
  exact key RETRY_COUNT 0

/-- Witness for `execute_with_retries_exhaustion` at the constantly
timing-out action. -/
theorem execute_with_retries_exhaustion_witness :
    (∀ i, (fun _ : Nat => AttemptResult.timeout (α := Nat)) i = AttemptResult.timeout) ∧
    execute_with_retries (fun _ : Nat => AttemptResult.timeout (α := Nat)) =
      (none, RETRY_COUNT, List.replicate RETRY_COUNT RETRY_DELAY_SECONDS) :=
  ⟨fun _ => rfl,
   execute_with_retries_exhaustion (fun _ : Nat => AttemptResult.timeout (α := Nat))
     (fun _ => rfl)⟩

/-- Claim C7: When the list of review items found on the current page is
empty, the pagination harvest loop terminates (`some`, not fuel exhaustion)
and returns exactly the reviews accumulated from all prior pages, without
raising an error. -/
theorem harvestLoop_empty_page (pages : Nat → List ι) (nextVisible : Nat → Bool)
    (parse : ι → Option β) (fuel p : Nat) (acc : List β)
    (h : pages p = []) :
    harvestLoop pages nextVisible parse (fuel + 1) p acc = some acc := by
  simp [harvestLoop, h]

/-- Witness for `harvestLoop_empty_page`: an all-empty page sequence returns
the previously accumulated reviews untouched. -/
theorem harvestLoop_empty_page_witness :
    ((fun _ : Nat => ([] : List Nat)) 1 = []) ∧
    harvestLoop (fun _ : Nat => ([] : List Nat)) (fun _ => true)
      (fun n : Nat => some n) 1 1 [7] = some [7] :=
  ⟨rfl, harvestLoop_empty_page (fun _ => []) (fun _ => true) (fun n => some n) 0 1 [7] rfl⟩

/-- Claim C4 (amended): When exactly one secondary read fails, product
extraction still succeeds and returns a partial record in which `title` and
every field read *before* the failing one are populated, while the failing
field and every field read after it are absent: the single `try` block stops
at the first raising read. -/
theorem extract_product_info_single_failure (t b p ct : String)
    (rA : Option String) (ds : List String) (now : Nat) :
    (extract_product_info ⟨some t, none, some p, some rA, some ct, some ds⟩ now =
      ⟨some t, none, none, none, none, none, none⟩) ∧
    (extract_product_info ⟨some t, some b, none, some rA, some ct, some ds⟩ now =
      ⟨some t, some b, none, none, none, none, none⟩) ∧
    (extract_product_info ⟨some t, some b, some p, none, some ct, some ds⟩ now =
      ⟨some t, some b, some p, none, none, none, none⟩) ∧
    (extract_product_info ⟨some t, some b, some p, some rA, none, some ds⟩ now =
      ⟨some t, some b, some p, some (ratingOrDefault rA), none, none, none⟩) ∧
    (extract_product_info ⟨some t, some b, some p, some rA, some ct, none⟩ now =
      ⟨some t, some b, some p, some (ratingOrDefault rA),
        some (parseReviewsCount ct), none, none⟩) :=
  ⟨rfl, rfl, rfl, rfl, rfl⟩

/-- Counterexample to claim C4 as stated: on `pgBrandFail` exactly the brand
read fails (all other reads return values), yet the resulting record leaves
`price` — a field the claim says is populated — absent, because the shared
`try` block aborts every read after the failing one. -/
theorem extract_product_info_brand_counterexample :
    pgBrandFail.title = some "T" ∧ pgBrandFail.brand = none ∧
    pgBrandFail.price = some "$9.99" ∧ pgBrandFail.ratingAttr = some (some "4.7") ∧
    pgBrandFail.reviewsCountText = some "(42)" ∧ pgBrandFail.descriptionTexts = some ["d1"] ∧
    (extract_product_info pgBrandFail 0).title = some "T" ∧
    (extract_product_info pgBrandFail 0).brand = none ∧
    (extract_product_info pgBrandFail 0).price = none := by
  decide

/-- A successful head match of `rating-(\d+)` forces the list to start with
the seven characters `rating-` followed by a digit. -/
theorem ratingMatchAt_some_shape (l : List Char) (n : Nat)
    (h : ratingMatchAt l = some n) :
    ∃ d rest, l = 'r' :: 'a' :: 't' :: 'i' :: 'n' :: 'g' :: '-' :: d :: rest ∧
      d.isDigit = true := by
  unfold ratingMatchAt at h
  split at h
  · next c1 c2 c3 c4 c5 c6 c7 c rest =>
    split at h
    · next hcond =>
      obtain ⟨h1, h2, h3, h4, h5, h6, h7, h8⟩ := hcond
      subst h1; subst h2; subst h3; subst h4; subst h5; subst h6; subst h7
      exact ⟨c, rest, rfl, h8⟩
    · exact absurd h (by simp)
  · exact absurd h (by simp)

/-- A successful `re.search(r'rating-(\d+)')` over the whole list exhibits an
occurrence of `rating-` followed by a digit somewhere in the list. -/
theorem findRatingNum_some_shape (l : List Char) (n : Nat)
    (h : findRatingNum l = some n) :
    ∃ pre d suf,
      l = pre ++ 'r' :: 'a' :: 't' :: 'i' :: 'n' :: 'g' :: '-' :: d :: suf ∧
      d.isDigit = true := by
  induction l with
  | nil => simp [findRatingNum] at h
  | cons c rest ih =>
    rw [findRatingNum] at h
    cases hm : ratingMatchAt (c :: rest) with
    | some m =>
      obtain ⟨d, suf, heq, hd⟩ := ratingMatchAt_some_shape _ _ hm
      exact ⟨[], d, suf, by simpa using heq, hd⟩
    | none =>
      rw [hm] at h
      obtain ⟨pre, d, suf, heq, hd⟩ := ih h
      exact ⟨c :: pre, d, suf, by simp [heq], hd⟩

/-- Claim C8 (amended): The rating produced by review parsing is a natural
number (hence ≥ 0) with *no* upper bound enforced by the code; when the
rating icon's class string contains no occurrence of `rating-` immediately
followed by a digit, or the attribute is absent, the rating is 0 and no
exception is raised. -/
theorem parseRating_fallback (s : String)
    (hno : ∀ pre suf (d : Char),
      s.data = pre ++ 'r' :: 'a' :: 't' :: 'i' :: 'n' :: 'g' :: '-' :: d :: suf →
      d.isDigit = false) :
    parseRating (some s) = 0 ∧ parseRating none = 0 ∧
      ∀ cls : Option String, 0 ≤ parseRating cls := by
  refine ⟨?_, rfl, fun _ => Nat.zero_le _⟩
  cases hm : findRatingNum s.data with
  | none => simp [parseRating, hm]
  | some m =>
    obtain ⟨pre, d, suf, heq, hd⟩ := findRatingNum_some_shape _ _ hm
    rw [hno pre suf d heq] at hd
    exact absurd hd (by simp)

/-- Witness for `parseRating_fallback` at the class string `"eggs"`, which
is too short to contain the pattern. -/
theorem parseRating_fallback_witness :
    (∀ pre suf (d : Char),
      ("eggs").data = pre ++ 'r' :: 'a' :: 't' :: 'i' :: 'n' :: 'g' :: '-' :: d :: suf →
      d.isDigit = false) ∧
    (parseRating (some "eggs") = 0 ∧ parseRating none = 0 ∧
      ∀ cls : Option String, 0 ≤ parseRating cls) := by
  have hno : ∀ pre suf (d : Char),
      ("eggs").data = pre ++ 'r' :: 'a' :: 't' :: 'i' :: 'n' :: 'g' :: '-' :: d :: suf →
      d.isDigit = false := by
    intro pre suf d hEq
    have h4 : ("eggs").data.length = 4 := rfl
    rw [hEq] at h4
    simp [List.length_append] at h4
    omega
  exact ⟨hno, parseRating_fallback "eggs" hno⟩

/-- Counterexample to claim C8 as stated: on `itemSix`, whose rating icon
carries the class `rating rating-6`, review parsing succeeds and produces
rating 6, which is not between 0 and 5 — the code never clamps the parsed
number. -/
theorem parse_review_rating_counterexample :
    (parse_review itemSix).map (fun r => r.rating) = some (some (6 : Int)) ∧
    ¬ ((6 : Int) ≤ 5) := by
  refine ⟨rfl, by decide⟩

/-- The update statement never touches the `url` column. -/
theorem refreshRow_url (p rt : String) (rc : Int) (now : Nat) (url : String)
    (r : ProductRow) : (refreshRow p rt rc now url r).url = r.url := by
  unfold refreshRow; split <;> rfl

/-- The update statement never touches the `id` column. -/
theorem refreshRow_id (p rt : String) (rc : Int) (now : Nat) (url : String)
    (r : ProductRow) : (refreshRow p rt rc now url r).id = r.id := by
  unfold refreshRow; split <;> rfl

/-- The update statement never touches the `title` column. -/
theorem refreshRow_title (p rt : String) (rc : Int) (now : Nat) (url : String)
    (r : ProductRow) : (refreshRow p rt rc now url r).title = r.title := by
  unfold refreshRow; split <;> rfl

/-- The update statement never touches the `brand` column. -/
theorem refreshRow_brand (p rt : String) (rc : Int) (now : Nat) (url : String)
    (r : ProductRow) : (refreshRow p rt rc now url r).brand = r.brand := by
  unfold refreshRow; split <;> rfl

/-- The update statement never touches the `description` column. -/
theorem refreshRow_description (p rt : String) (rc : Int) (now : Nat) (url : String)
    (r : ProductRow) : (refreshRow p rt rc now url r).description = r.description := by
  unfold refreshRow; split <;> rfl

/-- Looking a url up after the url-keyed update finds the updated image of
the row the lookup found before. -/
theorem find?_map_refreshRow (l : List ProductRow) (p rt : String) (rc : Int)
    (now : Nat) (url : String) :
    (l.map (refreshRow p rt rc now url)).find? (fun r => r.url == url) =
      (l.find? (fun r => r.url == url)).map (refreshRow p rt rc now url) := by
  have hfun : ((fun r => r.url == url) ∘ refreshRow p rt rc now url) =
      (fun r : ProductRow => r.url == url) := by
    funext r
    simp [Function.comp, refreshRow_url]
  rw [List.find?_map, hfun]

/-- After a successful `upsert_product` returning id `pid`, looking the url
up in the resulting store finds a row whose id is `pid`. -/
theorem upsert_product_find_after (db : DB) (info : ProductInfo) (url : String)
    (t : Nat) (pid : Int) (db1 : DB)
    (h : upsert_product db info url t = (some pid, db1)) :
    ∃ row, db1.products.find? (fun r => r.url == url) = some row ∧ row.id = pid := by
  unfold upsert_product at h
  split at h
  · next row0 hfind =>
    split at h
    · next p rt rc hp hr hc =>
      split at h
      · next tt htEq =>
        obtain ⟨hpid, hdb⟩ := Prod.mk.injEq _ _ _ _ ▸ h
        obtain rfl : pid = row0.id := by simpa using hpid.symm
        refine ⟨refreshRow p rt rc t url row0, ?_, refreshRow_id p rt rc t url row0⟩
        rw [← hdb]
        show (db.products.map (refreshRow p rt rc t url)).find? (fun r => r.url == url) =
          some (refreshRow p rt rc t url row0)
        rw [find?_map_refreshRow, hfind]
        rfl
      · simp at h
    · simp at h
  · next hfind =>
    split at h
    · next tt b p rt rc d htEq hb hp hr hc hd =>
      obtain ⟨hpid, hdb⟩ := Prod.mk.injEq _ _ _ _ ▸ h
      refine ⟨{ id := nextId (db.products.map (fun r => r.id)), url := url,
                title := tt, brand := b, price := p, ratings := rt,
                reviews_count := rc, description := d, scraped_at := t }, ?_, by simpa using hpid⟩
      rw [← hdb]
      simp only [List.find?_append, hfind, Option.none_or]
      simp [List.find?]
    · simp at h

/-- Claim C1: For every url, a second `upsert_product` for the same url (with
possibly different volatile fields) returns the same id as the first
successful call, and afterwards every stored row under that url carries the
second call's `price`, `ratings` and `reviews_count` (and such a row exists). -/
theorem upsert_product_second_call (db db1 : DB) (info1 info2 : ProductInfo)
    (url : String) (t1 t2 : Nat) (pid : Int)
    (h1 : upsert_product db info1 url t1 = (some pid, db1))
    (p2 rt2 : String) (rc2 : Int)
    (hp : info2.price = some p2) (hr : info2.ratings = some rt2)
    (hc : info2.reviews_count = some rc2) (ht : info2.title.isSome = true) :
    (upsert_product db1 info2 url t2).1 = some pid ∧
    (∃ r ∈ (upsert_product db1 info2 url t2).2.products, r.url = url) ∧
    (∀ r ∈ (upsert_product db1 info2 url t2).2.products, r.url = url →
      r.price = p2 ∧ r.ratings = rt2 ∧ r.reviews_count = rc2) := by
  obtain ⟨row, hfind, hid⟩ := upsert_product_find_after db info1 url t1 pid db1 h1
  obtain ⟨tt, htEq⟩ := Option.isSome_iff_exists.mp ht
  have hbeq := List.find?_some hfind
  have hrow : row.url = url := by simpa using hbeq
  have hrun : upsert_product db1 info2 url t2 =
      (some row.id,
       { db1 with products := db1.products.map (refreshRow p2 rt2 rc2 t2 url) }) := by
    unfold upsert_product
    rw [hfind, hp, hr, hc, htEq]
  rw [hrun]
  refine ⟨by simp [hid], ?_, ?_⟩
  · refine ⟨refreshRow p2 rt2 rc2 t2 url row,
      List.mem_map_of_mem _ (List.mem_of_find?_eq_some hfind), ?_⟩
    rw [refreshRow_url]; exact hrow
  · intro r hmem hurl
    obtain ⟨x, hx, rfl⟩ := List.mem_map.mp hmem
    by_cases hxu : (x.url == url) = true
    · simp [refreshRow, hxu]
    · rw [refreshRow_url] at hurl
      exact absurd (by simpa using hurl) hxu

/-- Witness for `upsert_product_second_call`: insert into the empty store,
then upsert the same url with different volatile fields. -/
theorem upsert_product_second_call_witness :
    (upsert_product ⟨[], []⟩ infoFirst "u" 5 = (some 1, dbAfterFirst)) ∧
    ((upsert_product dbAfterFirst infoSecond "u" 6).1 = some 1 ∧
     (∃ r ∈ (upsert_product dbAfterFirst infoSecond "u" 6).2.products, r.url = "u") ∧
     (∀ r ∈ (upsert_product dbAfterFirst infoSecond "u" 6).2.products, r.url = "u" →
       r.price = "$2" ∧ r.ratings = "4.8" ∧ r.reviews_count = 9)) :=
  ⟨by decide,
   upsert_product_second_call ⟨[], []⟩ dbAfterFirst infoFirst infoSecond "u" 5 6 1
     (by decide) "$2" "4.8" 9 rfl rfl rfl rfl⟩

/-- Claim C5: When a row is already stored under the given url, a subsequent
`upsert_product` for that url keeps the product table's length and, at every
position, the stored `id`, `url`, `title`, `brand` and `description`; only
`price`, `ratings`, `reviews_count` and `scraped_at` may change. -/
theorem upsert_product_immutable_fields (db : DB) (info : ProductInfo)
    (url : String) (now : Nat) (h : ∃ r ∈ db.products, r.url = url) :
    ((upsert_product db info url now).2.products.length = db.products.length) ∧
    ∀ i (hi : i < db.products.length)
      (hj : i < (upsert_product db info url now).2.products.length),
      (upsert_product db info url now).2.products[i].id = db.products[i].id ∧
      (upsert_product db info url now).2.products[i].url = db.products[i].url ∧
      (upsert_product db info url now).2.products[i].title = db.products[i].title ∧
      (upsert_product db info url now).2.products[i].brand = db.products[i].brand ∧
      (upsert_product db info url now).2.products[i].description =
        db.products[i].description := by
  obtain ⟨r0, hr0, hru⟩ := h
  have hfindSome : (db.products.find? (fun r => r.url == url)).isSome = true :=
    List.find?_isSome.mpr ⟨r0, hr0, by simpa using hru⟩
  obtain ⟨row, hfind⟩ := Option.isSome_iff_exists.mp hfindSome
  have hchar : (upsert_product db info url now).2.products = db.products ∨
      ∃ p rt rc, (upsert_product db info url now).2.products =
        db.products.map (refreshRow p rt rc now url) := by
    unfold upsert_product
    split
    · next row0 hf0 =>
      split
      · next p rt rc hp hr hc =>
        split
        · right; exact ⟨p, rt, rc, rfl⟩
        · right; exact ⟨p, rt, rc, rfl⟩
      · left; rfl
    · next hf0 =>
      rw [hf0] at hfind
      cases hfind
  rcases hchar with hEq | ⟨p, rt, rc, hEq⟩
  · rw [hEq]
    exact ⟨rfl, fun i _ _ => ⟨rfl, rfl, rfl, rfl, rfl⟩⟩
  · rw [hEq]
    refine ⟨List.length_map _ _, fun i _hi hj => ?_⟩
    simp only [List.getElem_map]
    exact ⟨refreshRow_id p rt rc now url _, refreshRow_url p rt rc now url _,
      refreshRow_title p rt rc now url _, refreshRow_brand p rt rc now url _,
      refreshRow_description p rt rc now url _⟩

/-- Witness for `upsert_product_immutable_fields` at the one-product store. -/
theorem upsert_product_immutable_fields_witness :
    (∃ r ∈ dbOneProduct.products, r.url = "u") ∧
    (((upsert_product dbOneProduct infoSecond "u" 6).2.products.length =
        dbOneProduct.products.length) ∧
     ∀ i (hi : i < dbOneProduct.products.length)
       (hj : i < (upsert_product dbOneProduct infoSecond "u" 6).2.products.length),
       (upsert_product dbOneProduct infoSecond "u" 6).2.products[i].id =
         dbOneProduct.products[i].id ∧
       (upsert_product dbOneProduct infoSecond "u" 6).2.products[i].url =
         dbOneProduct.products[i].url ∧
       (upsert_product dbOneProduct infoSecond "u" 6).2.products[i].title =
         dbOneProduct.products[i].title ∧
       (upsert_product dbOneProduct infoSecond "u" 6).2.products[i].brand =
         dbOneProduct.products[i].brand ∧
       (upsert_product dbOneProduct infoSecond "u" 6).2.products[i].description =
         dbOneProduct.products[i].description) :=
  ⟨by decide, upsert_product_immutable_fields dbOneProduct infoSecond "u" 6 (by decide)⟩

/-- Claim C9 (amended): A `KeyError` on a missing dict key is swallowed by the
catch-all handler before anything is written: for an existing url, a record
missing `price`, `ratings` or `reviews_count` updates nothing and returns
`None`; for a new url, a record missing any of the six inserted keys inserts
nothing and returns `None`.  (A partial record that still has `price`,
`ratings` and `reviews_count` — e.g. one lacking only `description` — *is*
persisted through the update path of an existing url; see the
counterexample.) -/
theorem upsert_product_missing_key_guard (db : DB) (info : ProductInfo)
    (url : String) (now : Nat) :
    ((db.products.find? (fun r => r.url == url)).isSome = true →
      (info.price = none ∨ info.ratings = none ∨ info.reviews_count = none) →
      upsert_product db info url now = (none, db)) ∧
    (db.products.find? (fun r => r.url == url) = none →
      (info.title = none ∨ info.brand = none ∨ info.price = none ∨
        info.ratings = none ∨ info.reviews_count = none ∨ info.description = none) →
      upsert_product db info url now = (none, db)) := by
  constructor
  · intro hs hmiss
    unfold upsert_product
    split
    · next row hf0 =>
      split
      · next p rt rc hp hr hc =>
        rcases hmiss with hm | hm | hm <;> simp_all
      · rfl
    · next hf0 =>
      rw [hf0] at hs
      simp at hs
  · intro hnone hmiss
    unfold upsert_product
    split
    · next row hf0 =>
      rw [hf0] at hnone
      cases hnone
    · split
      · next tt b p rt rc d htEq hb hp hr hc hd =>
        rcases hmiss with hm | hm | hm | hm | hm | hm <;> simp_all
      · rfl

/-- Witness for `upsert_product_missing_key_guard`: the empty dict against
an existing url and against the empty store. -/
theorem upsert_product_missing_key_guard_witness :
    ((dbOneProduct.products.find? (fun r => r.url == "u")).isSome = true) ∧
    (upsert_product dbOneProduct ⟨some "T", none, none, none, none, none, none⟩ "u" 3 =
      (none, dbOneProduct)) ∧
    ((⟨[], []⟩ : DB).products.find? (fun r => r.url == "u") = none) ∧
    (upsert_product ⟨[], []⟩ ⟨some "T", some "B", some "$1", some "4.5", some 3, none, none⟩
      "u" 3 = (none, ⟨[], []⟩)) :=
  ⟨by decide,
   (upsert_product_missing_key_guard dbOneProduct
      ⟨some "T", none, none, none, none, none, none⟩ "u" 3).1 (by decide) (by decide),
   rfl,
   (upsert_product_missing_key_guard ⟨[], []⟩
      ⟨some "T", some "B", some "$1", some "4.5", some 3, none, none⟩ "u" 3).2 rfl
     (by decide)⟩

/-- Counterexample to claim C9's final conclusion that a partial extraction with a
title but a missing secondary field is never persisted: on `pgDescFail` only
the description read fails, the resulting record still has `price`,
`ratings` and `reviews_count`, and upserting it for the already-stored url
`"u"` returns the existing id and *does* refresh the stored row. -/
theorem upsert_product_partial_persisted_counterexample :
    (extract_product_info pgDescFail 9).title = some "T" ∧
    (extract_product_info pgDescFail 9).description = none ∧
    (upsert_product dbOneProduct (extract_product_info pgDescFail 9) "u" 9).1 = some 1 ∧
    (upsert_product dbOneProduct (extract_product_info pgDescFail 9) "u" 9).2 ≠
      dbOneProduct := by
  decide

/-- If the natural key already occurs in the reviews table, `upsert_review`
is a no-op: the pre-insert lookup hits and the call returns without writing
— in particular it never updates the stored row. -/
theorem upsert_review_noop_of_present (d : DB) (i : ReviewInfo) (pid : Int)
    (name date : String) (hk : hasKeyFields name date i)
    (hpos : 0 < d.reviews.countP (keyMatch pid name date)) :
    upsert_review d i (some pid) = d := by
  obtain ⟨hn, hd, _⟩ := hk
  have hsome : (d.reviews.find? (keyMatch pid name date)).isSome = true :=
    List.find?_isSome.mpr (List.countP_pos_iff.mp hpos)
  obtain ⟨r0, hf⟩ := Option.isSome_iff_exists.mp hsome
  simp only [upsert_review, hn, hd, hf]

/-- After one `upsert_review` against a store containing at most one row for
the natural key, the table contains exactly one row for that key. -/
theorem upsert_review_count_one (db : DB) (i : ReviewInfo) (pid : Int)
    (name date : String)
    (hvalid : db.products.any (fun pr => pr.id == pid) = true)
    (hk : hasKeyFields name date i)
    (hcount : db.reviews.countP (keyMatch pid name date) ≤ 1) :
    (upsert_review db i (some pid)).reviews.countP (keyMatch pid name date) = 1 := by
  obtain ⟨hn, hd, hrat, hrt, hrb, hvb⟩ := hk
  obtain ⟨rat, hratEq⟩ := Option.isSome_iff_exists.mp hrat
  obtain ⟨rt, hrtEq⟩ := Option.isSome_iff_exists.mp hrt
  obtain ⟨rb, hrbEq⟩ := Option.isSome_iff_exists.mp hrb
  obtain ⟨vb, hvbEq⟩ := Option.isSome_iff_exists.mp hvb
  cases hf : db.reviews.find? (keyMatch pid name date) with
  | some r0 =>
    have hpos : 0 < db.reviews.countP (keyMatch pid name date) :=
      List.countP_pos_iff.mpr ⟨r0, List.mem_of_find?_eq_some hf, List.find?_some hf⟩
    simp only [upsert_review, hn, hd, hf]
    omega
  | none =>
    have h0 : db.reviews.countP (keyMatch pid name date) = 0 :=
      List.countP_eq_zero.mpr (List.find?_eq_none.mp hf)
    simp only [upsert_review, hn, hd, hf, hratEq, hrtEq, hrbEq, hvbEq, hvalid, if_true]
    rw [List.countP_append, h0]
    simp [List.countP_cons, keyMatch]

/-- Claim C2: For a natural key `(pid, name, date)` with a valid product id,
after the first `upsert_review` the reviews table contains exactly one row
with that key, and every later call with that key is a no-op that never
updates the stored row: the store after any sequence of further calls is the
store after the first call. -/
theorem upsert_review_write_once (db : DB) (pid : Int) (name date : String)
    (info0 : ReviewInfo) (infos : List ReviewInfo)
    (hvalid : db.products.any (fun pr => pr.id == pid) = true)
    (hk0 : hasKeyFields name date info0)
    (hks : ∀ i ∈ infos, hasKeyFields name date i)
    (hcount : db.reviews.countP (keyMatch pid name date) ≤ 1) :
    ((upsert_review db info0 (some pid)).reviews.countP (keyMatch pid name date) = 1) ∧
    (∀ i ∈ infos, upsert_review (upsert_review db info0 (some pid)) i (some pid) =
      upsert_review db info0 (some pid)) ∧
    (infos.foldl (fun d i => upsert_review d i (some pid))
      (upsert_review db info0 (some pid)) = upsert_review db info0 (some pid)) := by
  have h1 := upsert_review_count_one db info0 pid name date hvalid hk0 hcount
  have hnoop : ∀ i ∈ infos, upsert_review (upsert_review db info0 (some pid)) i (some pid) =
      upsert_review db info0 (some pid) := by
    intro i hi
    exact upsert_review_noop_of_present _ i pid name date (hks i hi) (by omega)
  refine ⟨h1, hnoop, ?_⟩
  induction infos with
  | nil => rfl
  | cons a l ih =>
    rw [List.foldl_cons, hnoop a (List.mem_cons_self a l)]
    exact ih (fun i hi => hks i (List.mem_cons_of_mem a hi))
      (fun i hi => hnoop i (List.mem_cons_of_mem a hi))

/-- Witness for `upsert_review_write_once`: upsert `reviewAlice` into the
one-product store, then replay the identical record. -/
theorem upsert_review_write_once_witness :
    (dbOneProduct.products.any (fun pr => pr.id == 1) = true) ∧
    hasKeyFields "alice" "d1" reviewAlice ∧
    (∀ i ∈ [reviewAlice], hasKeyFields "alice" "d1" i) ∧
    (dbOneProduct.reviews.countP (keyMatch 1 "alice" "d1") ≤ 1) ∧
    (((upsert_review dbOneProduct reviewAlice (some 1)).reviews.countP
        (keyMatch 1 "alice" "d1") = 1) ∧
     (∀ i ∈ [reviewAlice],
        upsert_review (upsert_review dbOneProduct reviewAlice (some 1)) i (some 1) =
          upsert_review dbOneProduct reviewAlice (some 1)) ∧
     ([reviewAlice].foldl (fun d i => upsert_review d i (some 1))
        (upsert_review dbOneProduct reviewAlice (some 1)) =
          upsert_review dbOneProduct reviewAlice (some 1))) := by
  have hk : hasKeyFields "alice" "d1" reviewAlice := ⟨rfl, rfl, rfl, rfl, rfl, rfl⟩
  have hks : ∀ i ∈ [reviewAlice], hasKeyFields "alice" "d1" i := by
    intro i hi
    rw [List.mem_singleton] at hi
    subst hi
    exact hk
  exact ⟨by decide, hk, hks, by decide,
    upsert_review_write_once dbOneProduct 1 "alice" "d1" reviewAlice [reviewAlice]
      (by decide) hk hks (by decide)⟩

end SPT
